import Mathlib

/-!
Verification development for the real-time audio dialog subsystem of the
repository (src/app/pages/audio_stream.py and src/app/gemini/audio_dialog.py).

The Python code is shallowly embedded: byte buffers become `List Nat`,
Python exceptions become an inductive type, the threading `queue.Queue` and
`asyncio.Queue` operations become explicit functions on lists, and each
coroutine's loop body becomes a step function on an explicit state record.
-/

namespace AudioStream

/-- A raw PCM audio buffer (Python `bytes`): a list of byte values. -/
abbrev Frame := List Nat

/-- `AudioLoop.END_TOKEN : bytes = b"__END__"` (audio_stream.py line 77),
the turn-end sentinel threaded through the inbound audio queue. -/
def END_TOKEN : Frame := [95, 95, 69, 78, 68, 95, 95]

/-- `SEND_SAMPLE_RATE = 16000` (audio_stream.py line 43). -/
def SEND_SAMPLE_RATE : Nat := 16000

/-- Capacity of `self.out_queue : Queue(maxsize=1000)` (audio_stream.py line 84). -/
def OUT_QUEUE_MAXSIZE : Nat := 1000

/-- Capacity of `self.audio_in_queue : asyncio.Queue(maxsize=100)`
(audio_stream.py line 85). -/
def AUDIO_IN_MAXSIZE : Nat := 100

/-- The message dict `{"data": audio_bytes, "mime_type": f"audio/pcm;rate=..."}`
enqueued by `_audio_callback` (audio_stream.py lines 104-110). -/
structure OutMsg where
  data : Frame
  mime_rate : Nat
deriving DecidableEq, Repr

/-- Python exception classes relevant to the embedded code. On the Python
versions the repository supports (3.10+; it imports the `taskgroup` backport
for < 3.11, and on 3.10-3.12 the classes below are distinct), the class
`queue.Full` raised by `queue.Queue.put_nowait` is NOT the class
`asyncio.QueueFull` named in the `except` clause of `_audio_callback`. -/
inductive PyExc
  | threadingQueueFull
  | asyncioQueueFull
deriving DecidableEq, Repr

/-- Log lines printed by `_audio_callback`. -/
inductive LogEvent
  | capturedAndQueued (nbytes : Nat)
  | outQueueFullDroppingFrame
deriving DecidableEq, Repr

/-- `queue.Queue.put_nowait` on a bounded threading queue: raises
`queue.Full` when the queue is at capacity, else appends at the tail. -/
def put_nowait (cap : Nat) (q : List α) (x : α) : Except PyExc (List α) :=
  if cap ≤ q.length then .error .threadingQueueFull else .ok (q ++ [x])

/-- The mutable `AudioLoop` state touched by the embedded loop bodies
(`AudioLoop.__init__`, audio_stream.py lines 79-88). -/
structure LoopState where
  is_playing : Bool
  out_queue : List OutMsg
  audio_in_queue : List Frame
  last_played_frames : List Frame
deriving DecidableEq, Repr

/-- The fresh state built by `AudioLoop.__init__` (audio_stream.py lines
79-88): cleared playing flag, empty queues, empty echo history. -/
def LoopState.init : LoopState :=
  { is_playing := false
    out_queue := []
    audio_in_queue := []
    last_played_frames := [] }

/-- Outcome of a call to `_audio_callback`: a normal return with the updated
state and log output, or an exception escaping the callback. -/
inductive CallbackResult
  | ok (s : LoopState) (logs : List LogEvent)
  | raised (e : PyExc) (s : LoopState)
deriving DecidableEq, Repr

/-- `AudioLoop._audio_callback` (audio_stream.py lines 91-113), the capture
handoff run on the event loop via `call_soon_threadsafe`. It suppresses the
frame when `is_playing` is set or the bytes occur in `last_played_frames`;
otherwise it calls `out_queue.put_nowait` inside a
`try ... except asyncio.QueueFull` block. Because `out_queue` is a
threading `queue.Queue`, a full queue raises `queue.Full`, which the
handler (matching only `asyncio.QueueFull`) does not catch. -/
def audio_callback (s : LoopState) (audio_bytes : Frame) : CallbackResult :=
  if s.is_playing = true ∨ audio_bytes ∈ s.last_played_frames then
    .ok s []
  else
    match put_nowait OUT_QUEUE_MAXSIZE s.out_queue
        ⟨audio_bytes, SEND_SAMPLE_RATE⟩ with
    | .ok q => .ok { s with out_queue := q } [.capturedAndQueued audio_bytes.length]
    | .error e =>
        if e = PyExc.asyncioQueueFull then .ok s [.outQueueFullDroppingFrame]
        else .raised e s

/-- The echo-history bound checked by `play_audio`
(`if len(self.last_played_frames) > 400: self.last_played_frames.pop(0)`,
audio_stream.py lines 210-211). -/
def HISTORY_BOUND : Nat := 400

/-- The history update performed by `play_audio` for one played frame
(audio_stream.py lines 209-211): `append(frame)`, then `pop(0)` if the
length exceeds 400. -/
def recordPlayed (h : List Frame) (f : Frame) : List Frame :=
  let h2 := h ++ [f]
  if HISTORY_BOUND < h2.length then h2.tail else h2

/-- The play-side state mutated by one iteration of the `play_audio` loop
body (audio_stream.py lines 201-214). -/
structure PlayState where
  is_playing : Bool
  last_played_frames : List Frame
deriving DecidableEq, Repr

/-- One iteration of the `play_audio` dequeue loop (audio_stream.py lines
202-214) applied to a dequeued `frame`: on `frame == END_TOKEN` it sleeps
the 0.3 s grace interval, clears `is_playing`, and writes nothing; otherwise
it sets `is_playing`, records the frame into the bounded history, and
writes the frame to the output stream. Returns the new state and the list
of frames written to the sink by this iteration. -/
def playStep (st : PlayState) (frame : Frame) : PlayState × List Frame :=
  if frame = END_TOKEN then
    ({ st with is_playing := false }, [])
  else
    ({ is_playing := true
       last_played_frames := recordPlayed st.last_played_frames frame }, [frame])

/-- The `play_audio` dequeue loop run over a finite prefix of the inbound
queue: folds `playStep` left to right, concatenating the writes. -/
def playRun (st : PlayState) : List Frame → PlayState × List Frame
  | [] => (st, [])
  | f :: fs =>
      let r1 := playStep st f
      let r2 := playRun r1.1 fs
      (r2.1, r1.2 ++ r2.2)

/-- The value of `is_playing` observed after each iteration of the
`play_audio` loop (the flag trace): `Idle` in the spec's EchoGate machine
is the cleared flag, `Playing`/`DrainGrace` the set flag. -/
def playTrace (st : PlayState) : List Frame → List Bool
  | [] => []
  | f :: fs =>
      let st1 := (playStep st f).1
      st1.is_playing :: playTrace st1 fs

/-- `AudioLoop.play_audio` including its warm-up guard (audio_stream.py
lines 199-200): the loop body is not entered until
`audio_in_queue.qsize() >= 2`, so when the whole inbound sequence holds
fewer than two items and no further item ever arrives, nothing is ever
dequeued or written. Returns the frames written to the output stream. -/
def play_audio_writes (st : PlayState) (inbound : List Frame) : List Frame :=
  if inbound.length < 2 then [] else (playRun st inbound).2

/-- The blocking `await self.audio_in_queue.put(...)` used by
`receive_audio` (audio_stream.py lines 165, 174, 182) on the bounded
`asyncio.Queue(maxsize=100)`: the coroutine suspends while the queue is
full, so the item is appended only once the length is below capacity. -/
def audio_in_put (q : List Frame) (f : Frame) : List Frame :=
  if q.length < AUDIO_IN_MAXSIZE then q ++ [f] else q

/-- One received response event handled by the `receive_audio` loop body
(audio_stream.py lines 170-178, the simple-response branch): audio data is
put on `audio_in_queue`; text is forwarded to the text queue and does not
touch the audio state. -/
inductive RespEvent
  | audioData (f : Frame)
  | textChunk
deriving DecidableEq, Repr

/-- `receive_audio` handling of one response event (audio_stream.py lines
170-178). -/
def receive_step (s : LoopState) (ev : RespEvent) : LoopState :=
  match ev with
  | .audioData f => { s with audio_in_queue := audio_in_put s.audio_in_queue f }
  | .textChunk => s

/-- One iteration of the `send_realtime` loop (audio_stream.py lines
139-147): dequeue the head of `out_queue` (returning it for
`session.send_realtime_input`), or nothing when the queue is empty. -/
def send_realtime_step (s : LoopState) : LoopState × Option OutMsg :=
  match s.out_queue with
  | [] => (s, none)
  | m :: rest => ({ s with out_queue := rest }, some m)

/-- The module-level mutable state of src/app/gemini/audio_dialog.py that
exists outside any session object: `mic_q` and `spk_q` are module globals
(lines 50-51) and `MicSender.silence` is a class attribute (line 70). -/
structure DialogGlobals where
  mic_q : List Frame
  spk_q : List Frame
  silence : Nat
deriving DecidableEq, Repr

/-- `start_live` (audio_dialog.py lines 190-198): creates a fresh
`asyncio.Event` stop flag and spawns a thread running `live_session`; it
reads and writes none of the module-level queues or the class-level
silence counter, so the globals it returns alongside the fresh stop event
are exactly the globals it was given. -/
def start_live (g : DialogGlobals) : DialogGlobals × Bool :=
  (g, false)

/-- Helper projecting the loop state out of a callback outcome (on a normal
return the updated state, on an escaped exception the state at raise time). -/
def CallbackResult.state : CallbackResult → LoopState
  | .ok s _ => s
  | .raised _ s => s

/-- Modelled from the spec: the FrameQueue component (§4.1) is realized in
the source by the Python stdlib `queue.Queue` / `asyncio.Queue`
(audio_stream.py lines 84-85), whose implementation is not part of the
repository. Per the spec it is a bounded, ordered byte-chunk queue:
`put` blocks when at capacity, `get` suspends until an item is available,
FIFO ordering strictly preserved. -/
structure FrameQueue where
  cap : Nat
  items : List Frame
deriving DecidableEq, Repr

/-- An operation on a FrameQueue issued by a producer or consumer. -/
inductive QueueOp
  | put (f : Frame)
  | get
deriving DecidableEq, Repr

/-- Modelled from the spec: one FrameQueue operation. A blocking `put`
appends at the tail (it only ever fires when the queue is below capacity —
a blocked producer is simply suspended, so the operation does not appear in
the trace until there is room); a `get` removes and returns the head, or
returns nothing while suspended on an empty queue. The second component is
the list of items the operation delivered to the consumer. -/
def qstep (q : FrameQueue) : QueueOp → FrameQueue × List Frame
  | .put f =>
      if q.items.length < q.cap then ({ q with items := q.items ++ [f] }, [])
      else (q, [])
  | .get =>
      match q.items with
      | [] => (q, [])
      | x :: rest => ({ q with items := rest }, [x])

/-- A trace of FrameQueue operations, run left to right; returns the final
queue and the concatenation of everything `get` delivered. -/
def qrun (q : FrameQueue) : List QueueOp → FrameQueue × List Frame
  | [] => (q, [])
  | op :: ops =>
      let r1 := qstep q op
      let r2 := qrun r1.1 ops
      (r2.1, r1.2 ++ r2.2)

/-- The frames a trace of operations pushes, in order. -/
def putsOf : List QueueOp → List Frame
  | [] => []
  | .put f :: ops => f :: putsOf ops
  | .get :: ops => putsOf ops

/-- A trace is admissible for a blocking producer: every `put` fires only
when the queue is below capacity (a blocking producer waits for room, so in
any realizable schedule its `put` lands on a non-full queue). -/
def admissibleB (q : FrameQueue) : List QueueOp → Bool
  | [] => true
  | op :: ops =>
      (match op with
       | .put _ => decide (q.items.length < q.cap)
       | .get => true) && admissibleB (qstep q op).1 ops

/-- An out-queue filled to its configured capacity of 1000 messages, the
state in which `_audio_callback`'s `put_nowait` overflows. -/
def fullOutQueue : List OutMsg :=
  List.replicate OUT_QUEUE_MAXSIZE ⟨[0], SEND_SAMPLE_RATE⟩

/-- A loop state whose echo history holds the single played buffer
`[1, 2]`, with the playing flag clear (Idle) and both queues empty. -/
def idleWithHistory : LoopState :=
  { is_playing := false
    out_queue := []
    audio_in_queue := []
    last_played_frames := [[1, 2]] }

/-- A FrameQueue of capacity 2, initially empty. -/
def exampleQueue : FrameQueue := ⟨2, []⟩

/-- A producer/consumer trace on `exampleQueue` in which every put lands on
a non-full queue. -/
def exampleOps : List QueueOp :=
  [.put [1], .put [2], .get, .put [3], .get, .get]

/-! Helper lemmas shared across the claim theorems. -/

/-- Running the play loop over a concatenation splits into the two runs. -/
theorem playRun_append (st : PlayState) (xs ys : List Frame) :
    playRun st (xs ++ ys) =
      ((playRun (playRun st xs).1 ys).1,
        (playRun st xs).2 ++ (playRun (playRun st xs).1 ys).2) := by
  induction xs generalizing st with
  | nil => simp [playRun]
  | cons x xs ih => simp [playRun, ih]

/-- A turn's audio frames (none equal to the sentinel) are written to the
sink verbatim and in order by the play loop. -/
theorem playRun_writes_all (frames : List Frame) (st : PlayState)
    (hf : ∀ f ∈ frames, f ≠ END_TOKEN) :
    (playRun st frames).2 = frames := by
  induction frames generalizing st with
  | nil => rfl
  | cons f fs ih =>
      have hfe : f ≠ END_TOKEN := hf f (by simp)
      simp [playRun, playStep, hfe,
        ih _ (fun g hg => hf g (List.mem_cons_of_mem _ hg))]

/-- Processing the sentinel clears the playing flag and writes nothing. -/
theorem playStep_end (st : PlayState) :
    playStep st END_TOKEN = ({ st with is_playing := false }, []) := by
  simp [playStep]

/-- Processing a non-sentinel frame sets the playing flag and writes it. -/
theorem playStep_frame (st : PlayState) (f : Frame) (hf : f ≠ END_TOKEN) :
    playStep st f =
      ({ is_playing := true
         last_played_frames := recordPlayed st.last_played_frames f }, [f]) := by
  simp [playStep, hf]

/-! The claim theorems. -/

/-- C1: a captured frame whose bytes are byte-equal to some entry of
`last_played_frames` is suppressed by `_audio_callback` (the state,
`out_queue` included, is unchanged and nothing is enqueued), and this holds
even when `is_playing` is clear (Idle); conversely, in Idle a captured
frame matching no history entry is enqueued on `out_queue` (given room),
even immediately after playback when the history is non-empty. -/
theorem c1_echo_gate_byte_equality (s : LoopState) (b : Frame) :
    (b ∈ s.last_played_frames → audio_callback s b = .ok s []) ∧
    (s.is_playing = false → b ∉ s.last_played_frames →
      s.out_queue.length < OUT_QUEUE_MAXSIZE →
      audio_callback s b =
        .ok { s with out_queue := s.out_queue ++ [⟨b, SEND_SAMPLE_RATE⟩] }
          [.capturedAndQueued b.length]) := by
  constructor
  · intro hmem
    simp [audio_callback, hmem]
  · intro hidle hmem hroom
    simp [audio_callback, hidle, hmem, put_nowait, Nat.not_le.mpr hroom]

/-- Witness for C1 at concrete inputs: in the Idle state whose history
holds `[1, 2]`, the captured buffer `[1, 2]` is suppressed and the fresh
buffer `[3]` is enqueued. -/
theorem c1_echo_gate_byte_equality_witness :
    audio_callback idleWithHistory [1, 2] = .ok idleWithHistory [] ∧
    audio_callback idleWithHistory [3] =
      .ok { idleWithHistory with
              out_queue := idleWithHistory.out_queue ++ [⟨[3], SEND_SAMPLE_RATE⟩] }
        [.capturedAndQueued 1] :=
  ⟨(c1_echo_gate_byte_equality idleWithHistory [1, 2]).1 (by decide),
   (c1_echo_gate_byte_equality idleWithHistory [3]).2 rfl (by decide) (by decide)⟩

/-- C10: the `play_audio` warm-up guard never enters the dequeue loop while
the inbound queue has held fewer than two items, so an inbound sequence of
a single audio frame followed by no further events is never written. -/
theorem c10_play_warmup (st : PlayState) (inbound : List Frame)
    (h : inbound.length < 2) :
    play_audio_writes st inbound = [] := by
  simp [play_audio_writes, h]

/-- Witness for C10: a lone 1-element inbound sequence produces no writes. -/
theorem c10_play_warmup_witness :
    ([[0]] : List Frame).length < 2 ∧
      play_audio_writes ⟨false, []⟩ [[0]] = [] :=
  ⟨by decide, c10_play_warmup ⟨false, []⟩ [[0]] (by decide)⟩

/-- C2 counterexample: run the play loop from Idle over one audio frame,
the `TurnEnd` sentinel, and a barge-in frame that was already queued when
the sentinel was processed. The flag trace (Idle ⇔ `is_playing = false`) is
`[true, false, true]`: after the grace sleep the code clears `is_playing`
unconditionally (audio_stream.py lines 203-207), so the gate passes
through Idle before the barge-in frame sets it again — refuting the
claim's "returns to Playing without passing through Idle" and "mic capture
remains suppressed throughout". -/
theorem c2_barge_in_passes_through_idle :
    playTrace ⟨false, []⟩ [[0], END_TOKEN, [1]] = [true, false, true] ∧
    (playRun ⟨false, []⟩ [[0], END_TOKEN]).1.is_playing = false ∧
    (playRun ⟨false, []⟩ [[0], END_TOKEN, [1]]).1.is_playing = true := by
  decide

/-- C2 amended: for an inbound turn of non-sentinel frames followed by the
`TurnEnd` sentinel, the play loop writes exactly those frames to the sink
in order and then (after the grace sleep) clears `is_playing` (Idle) with
no further writes; when a barge-in chunk follows the sentinel, it is
written and `is_playing` is set again — but only after the unconditional
clear, i.e. the gate re-enters Playing by way of Idle. -/
theorem c2_turn_end_drain_then_barge_in (st : PlayState)
    (frames : List Frame) (g : Frame)
    (hf : ∀ f ∈ frames, f ≠ END_TOKEN) (hg : g ≠ END_TOKEN) :
    (playRun st (frames ++ [END_TOKEN])).2 = frames ∧
    (playRun st (frames ++ [END_TOKEN])).1.is_playing = false ∧
    (playRun st (frames ++ [END_TOKEN, g])).2 = frames ++ [g] ∧
    (playRun st (frames ++ [END_TOKEN, g])).1.is_playing = true := by
  have hrun := playRun_writes_all frames st hf
  refine ⟨?_, ?_, ?_, ?_⟩
  · rw [playRun_append, hrun]
    simp [playRun, playStep_end]
  · rw [playRun_append]
    simp [playRun, playStep_end]
  · rw [playRun_append, hrun]
    simp [playRun, playStep_end, playStep_frame _ g hg]
  · rw [playRun_append]
    simp [playRun, playStep_end, playStep_frame _ g hg]

/-- Witness for the amended C2 at a concrete turn: two frames, the
sentinel, and a barge-in frame. -/
theorem c2_turn_end_drain_then_barge_in_witness :
    (∀ f ∈ ([[0], [0, 1]] : List Frame), f ≠ END_TOKEN) ∧
    ([2] : Frame) ≠ END_TOKEN ∧
    ((playRun ⟨false, []⟩ ([[0], [0, 1]] ++ [END_TOKEN])).2 = [[0], [0, 1]] ∧
      (playRun ⟨false, []⟩ ([[0], [0, 1]] ++ [END_TOKEN])).1.is_playing = false ∧
      (playRun ⟨false, []⟩ ([[0], [0, 1]] ++ [END_TOKEN, [2]])).2 =
        [[0], [0, 1]] ++ [[2]] ∧
      (playRun ⟨false, []⟩
          ([[0], [0, 1]] ++ [END_TOKEN, [2]])).1.is_playing = true) :=
  ⟨by decide, by decide,
   c2_turn_end_drain_then_barge_in ⟨false, []⟩ [[0], [0, 1]] [2]
     (by decide) (by decide)⟩

/-- C5: with the out-queue at its configured capacity, `_audio_callback`'s
`put_nowait` raises `queue.Full`; the callback's `except asyncio.QueueFull`
clause names a different exception class, so the exception escapes the
callback uncaught and the intended "dropping frame" log line is never
reached (audio_stream.py lines 102-113). -/
theorem c5_full_queue_exception_escapes :
    audio_callback ⟨false, fullOutQueue, [], []⟩ [1] =
      .raised .threadingQueueFull ⟨false, fullOutQueue, [], []⟩ := by
  simp [audio_callback, put_nowait, fullOutQueue]

/-- C6: for every admissible trace of blocking puts and gets on a bounded
FrameQueue, the frames delivered by `get` followed by the frames still
queued equal the initial contents followed by all pushed frames in push
order — FIFO is preserved end to end and a blocking producer never loses a
frame. -/
theorem c6_frame_queue_fifo (q : FrameQueue) (ops : List QueueOp)
    (h : admissibleB q ops = true) :
    (qrun q ops).2 ++ (qrun q ops).1.items = q.items ++ putsOf ops := by
  induction ops generalizing q with
  | nil => simp [qrun, putsOf]
  | cons op ops ih =>
      rw [admissibleB.eq_def, Bool.and_eq_true] at h
      cases op with
      | put f =>
          have hlt : q.items.length < q.cap := by simpa using h.1
          have hih := ih (qstep q (.put f)).1 h.2
          simp only [qstep, if_pos hlt] at hih
          simp [qrun, qstep, if_pos hlt, putsOf, hih]
      | get =>
          have hih := ih (qstep q .get).1 h.2
          cases hq : q.items with
          | nil =>
              simp only [qstep, hq] at hih
              simp [qrun, qstep, hq, putsOf, hih]
          | cons x rest =>
              simp only [qstep, hq] at hih
              simp [qrun, qstep, hq, putsOf, hih]

/-- Witness for C6: capacity-2 queue, trace of three puts interleaved with
three gets, all puts landing on a non-full queue. -/
theorem c6_frame_queue_fifo_witness :
    admissibleB exampleQueue exampleOps = true ∧
    (qrun exampleQueue exampleOps).2 ++ (qrun exampleQueue exampleOps).1.items =
      exampleQueue.items ++ putsOf exampleOps :=
  ⟨by decide, c6_frame_queue_fifo exampleQueue exampleOps (by decide)⟩

/-- C7 counterexample: `start_live` leaves the module-level `mic_q` and
`spk_q` and the class-level `MicSender.silence` exactly as it found them —
starting a new session with a non-empty mic queue and a non-zero silence
counter carries both over, refuting "no queue contents ... or silence
counter is carried over from a previous session". -/
theorem c7_globals_survive_restart :
    (start_live ⟨[[1]], [[2]], 5⟩).1 = ⟨[[1]], [[2]], 5⟩ := by
  decide

/-- C7 amended: restarting via `_start_chat` constructs a fresh `AudioLoop`
whose playing flag is clear, whose two queues are empty, and whose echo
history is empty — none of that per-loop state is carried over; but the
`audio_dialog` variant's module-level queues and class-level silence
counter are untouched by `start_live` and persist across sessions. -/
theorem c7_fresh_audio_loop_state (g : DialogGlobals) :
    LoopState.init.is_playing = false ∧
    LoopState.init.out_queue = [] ∧
    LoopState.init.audio_in_queue = [] ∧
    LoopState.init.last_played_frames = [] ∧
    (start_live g).1 = g := by
  exact ⟨rfl, rfl, rfl, rfl, rfl⟩

/-- C8: the data-model invariants hold of every embedded operation: the
history update keeps `last_played_frames` within the 400-entry bound and
is exactly append-then-evict-oldest; a successful `put_nowait` keeps the
out-queue within its capacity; the blocking inbound put keeps
`audio_in_queue` within its capacity; and the listen, receive, and send
activities never mutate `is_playing`. -/
theorem c8_data_model_invariants :
    (∀ (h : List Frame) (f : Frame), h.length ≤ HISTORY_BOUND →
      (recordPlayed h f).length ≤ HISTORY_BOUND) ∧
    (∀ (h : List Frame) (f : Frame),
      recordPlayed h f =
        if HISTORY_BOUND < h.length + 1 then (h ++ [f]).tail else h ++ [f]) ∧
    (∀ (cap : Nat) (q : List OutMsg) (x : OutMsg) (q2 : List OutMsg),
      put_nowait cap q x = .ok q2 → q2.length ≤ cap) ∧
    (∀ (q : List Frame) (f : Frame), q.length ≤ AUDIO_IN_MAXSIZE →
      (audio_in_put q f).length ≤ AUDIO_IN_MAXSIZE) ∧
    (∀ (s : LoopState) (b : Frame),
      (audio_callback s b).state.is_playing = s.is_playing) ∧
    (∀ (s : LoopState) (ev : RespEvent),
      (receive_step s ev).is_playing = s.is_playing) ∧
    (∀ s : LoopState, (send_realtime_step s).1.is_playing = s.is_playing) := by
  refine ⟨?_, ?_, ?_, ?_, ?_, ?_, ?_⟩
  · intro h f hlen
    by_cases hb : HISTORY_BOUND < h.length + 1
    · simp [recordPlayed, hb]
      omega
    · simp [recordPlayed, hb]
      omega
  · intro h f
    simp [recordPlayed]
  · intro cap q x q2 hok
    by_cases hc : cap ≤ q.length
    · simp [put_nowait, hc] at hok
    · simp [put_nowait, hc] at hok
      subst hok
      simp
      omega
  · intro q f hlen
    by_cases hc : q.length < AUDIO_IN_MAXSIZE
    · simp [audio_in_put, hc]
      omega
    · simp [audio_in_put, hc]
      exact hlen
  · intro s b
    by_cases h1 : s.is_playing = true ∨ b ∈ s.last_played_frames
    · simp [audio_callback, h1, CallbackResult.state]
    · simp only [audio_callback, if_neg h1]
      cases hput : put_nowait OUT_QUEUE_MAXSIZE s.out_queue
          ⟨b, SEND_SAMPLE_RATE⟩ with
      | ok q => simp [CallbackResult.state]
      | error e =>
          by_cases he : e = PyExc.asyncioQueueFull
          · simp [he, CallbackResult.state]
          · simp [he, CallbackResult.state]
  · intro s ev
    cases ev <;> simp [receive_step]
  · intro s
    cases hs : s.out_queue <;> simp [send_realtime_step, hs]

/-- Witness for C8 at concrete inputs: a full-length history stays at the
bound and evicts its head, a put on a capacity-2 queue stays within
capacity, the inbound put respects its bound, and the three non-play
activities leave the playing flag of `idleWithHistory` unchanged. -/
theorem c8_data_model_invariants_witness :
    (List.replicate HISTORY_BOUND ([] : Frame)).length ≤ HISTORY_BOUND ∧
    (recordPlayed (List.replicate HISTORY_BOUND []) [7]).length ≤ HISTORY_BOUND ∧
    put_nowait 2 [] (⟨[0], SEND_SAMPLE_RATE⟩ : OutMsg) =
        .ok [⟨[0], SEND_SAMPLE_RATE⟩] ∧
    ([⟨[0], SEND_SAMPLE_RATE⟩] : List OutMsg).length ≤ 2 ∧
    (audio_in_put [] [4]).length ≤ AUDIO_IN_MAXSIZE ∧
    (audio_callback idleWithHistory [3]).state.is_playing =
      idleWithHistory.is_playing ∧
    (receive_step idleWithHistory (.audioData [4])).is_playing =
      idleWithHistory.is_playing ∧
    (send_realtime_step idleWithHistory).1.is_playing =
      idleWithHistory.is_playing := by
  refine ⟨by simp, ?_, by rfl, ?_, ?_, ?_, ?_, ?_⟩
  · exact (c8_data_model_invariants.1 (List.replicate HISTORY_BOUND []) [7]
      (by simp))
  · exact c8_data_model_invariants.2.2.1 2 [] ⟨[0], SEND_SAMPLE_RATE⟩
      [⟨[0], SEND_SAMPLE_RATE⟩] (by rfl)
  · exact c8_data_model_invariants.2.2.2.1 [] [4] (by simp [AUDIO_IN_MAXSIZE])
  · exact c8_data_model_invariants.2.2.2.2.1 idleWithHistory [3]
  · exact c8_data_model_invariants.2.2.2.2.2.1 idleWithHistory (.audioData [4])
  · exact c8_data_model_invariants.2.2.2.2.2.2 idleWithHistory

/-- C9: the play loop treats every dequeued chunk whose bytes equal
`b"__END__"` as the turn-end sentinel — such a chunk is never among the
frames written to the sink, and processing it clears `is_playing` (the
grace transition) instead of playing it, even if the chunk were genuine
audio coincidentally equal to the sentinel bytes. -/
theorem c9_sentinel_collision :
    (∀ (st : PlayState) (inbound : List Frame),
      END_TOKEN ∉ (playRun st inbound).2) ∧
    (∀ st : PlayState,
      playStep st END_TOKEN = ({ st with is_playing := false }, [])) := by
  refine ⟨?_, playStep_end⟩
  intro st inbound
  induction inbound generalizing st with
  | nil => simp [playRun]
  | cons f fs ih =>
      by_cases hf : f = END_TOKEN
      · simp [playRun, playStep, hf, ih]
      · simp [playRun, playStep, hf, ih, Ne.symm hf]

end AudioStream
